import Mathlib

/-!
Shallow embedding of `my_basic_cli_tools` (a minimal interactive shell):
the quote-aware tokenizer (`src/parse_command/input_utils.rs`), the command
parser/validator (`src/parse_command.rs`) and the read-eval-print loop of
`src/main.rs`, together with theorems settling the specification claims.

Rust `String`s are Lean `String`s, `Vec<T>` is `List T`, `Result<T, E>` is
`Except E T`.  The filesystem consumed by the `ls` command is modelled as an
explicit record of query functions; printing is modelled by returning the
list of printed lines.  A Rust panic (index out of bounds, `unwrap` on an
`Err`) is modelled by an explicit `none` / `panic` outcome.
-/

namespace MyBasicCliTools

/-- Loop body of `split_input_outside_quotes` (input_utils.rs): scans the
remaining characters, carrying the accumulating token buffer `current` and
the `inside_quotes` flag; at the end of the scan the buffer is pushed
unconditionally. -/
def splitLoop (delimiter : Char) : List Char → String → Bool → List String
  | [], current, _ => [current]
  | c :: cs, current, inside_quotes =>
    if c = '"' then
      splitLoop delimiter cs current (!inside_quotes)
    else if c = delimiter ∧ inside_quotes = false then
      if current = "" then
        splitLoop delimiter cs current inside_quotes
      else
        current :: splitLoop delimiter cs "" inside_quotes
    else
      splitLoop delimiter cs (current.push c) inside_quotes

/-- `split_input_outside_quotes` (input_utils.rs): splits `input` on
`delimiter` characters occurring outside double quotes; quote characters
toggle the flag and are dropped. -/
def split_input_outside_quotes (input : String) (delimiter : Char) : List String :=
  splitLoop delimiter input.data "" false

/-- `split_input_outside_quotes_on_whitespace` (input_utils.rs): the
delimiter is the space character. -/
def split_input_outside_quotes_on_whitespace (input : String) : List String :=
  split_input_outside_quotes input ' '

/-- `CommandType` (parse_command.rs): the closed enumeration of command
kinds. -/
inductive CommandType where
  | Echo
  | Exit
  | Help
  | Ls
deriving DecidableEq, Repr

/-- `ArgumentCount` (parse_command.rs): the argument-count constraint. -/
inductive ArgumentCount where
  | Exact (expected : Nat)
  | AtLeast (min : Nat)
  | AtMost (max : Nat)
  | Range (min : Nat) (max : Nat)
deriving DecidableEq, Repr

/-- `ArgumentCount::is_valid` (parse_command.rs). -/
def ArgumentCount.is_valid : ArgumentCount → Nat → Bool
  | .Exact expected, count => count = expected
  | .AtLeast min, count => count ≥ min
  | .AtMost max, count => count ≤ max
  | .Range min max, count => count ≥ min ∧ count ≤ max

/-- `Display for ArgumentCount` (parse_command.rs). -/
def ArgumentCount.toDisplay : ArgumentCount → String
  | .Exact count => "exactly " ++ toString count
  | .AtLeast min => "at least " ++ toString min
  | .AtMost max => "up to " ++ toString max
  | .Range min max => toString min ++ "-" ++ toString max

/-- `CommandError` (parse_command.rs). -/
inductive CommandError where
  | UnknownCommand (name : String)
  | UnsupportedFlag (flag : String)
  | WrongArgumentsCount (expected : ArgumentCount) (actual : Nat)
deriving DecidableEq, Repr

/-- `Display for CommandError` (parse_command.rs). -/
def CommandError.toDisplay : CommandError → String
  | .UnknownCommand command => "Unknown command: " ++ command
  | .UnsupportedFlag flag => "Unsupported flag: " ++ flag
  | .WrongArgumentsCount expected actual =>
      "Wrong number of arguments: expected " ++ expected.toDisplay
        ++ ", got " ++ toString actual

/-- `CommandType::get_supported_flags` (parse_command.rs): every kind
currently supports no flags. -/
def CommandType.get_supported_flags : CommandType → List String
  | .Echo => []
  | .Exit => []
  | .Help => []
  | .Ls => []

/-- `CommandType::is_supported_flag` (parse_command.rs). -/
def CommandType.is_supported_flag (t : CommandType) (flag : String) : Bool :=
  t.get_supported_flags.contains flag

/-- `CommandType::get_expected_argument_count` (parse_command.rs). -/
def CommandType.get_expected_argument_count : CommandType → Option ArgumentCount
  | .Echo => some (.AtLeast 1)
  | .Exit => some (.Exact 0)
  | .Help => some (.Exact 0)
  | .Ls => none

/-- `TryFrom<String> for CommandType` (parse_command.rs): exact,
case-sensitive match of the name against the closed enumeration. -/
def CommandType.tryFrom (input : String) : Except CommandError CommandType :=
  if input = "echo" then .ok .Echo
  else if input = "exit" then .ok .Exit
  else if input = "help" then .ok .Help
  else if input = "ls" then .ok .Ls
  else .error (.UnknownCommand input)

/-- `Command` (parse_command.rs): the validated command value. -/
structure Command where
  command_type : CommandType
  arguments : List String
  flags : List String
deriving DecidableEq, Repr

/-- The flag-validation loop of `Command::new` (parse_command.rs): returns
the first flag that is not supported by the kind, if any. -/
def firstUnsupportedFlag (t : CommandType) : List String → Option String
  | [] => none
  | flag :: rest =>
    if t.is_supported_flag flag then firstUnsupportedFlag t rest
    else some flag

/-- `Command::new` (parse_command.rs): validates flags (fail-fast on the
first unsupported one), then the argument count, then constructs the
command. -/
def Command.new (command_type : CommandType) (arguments : List String)
    (flags : List String) : Except CommandError Command :=
  match firstUnsupportedFlag command_type flags with
  | some flag => .error (.UnsupportedFlag flag)
  | none =>
    match command_type.get_expected_argument_count with
    | some expected_argument_count =>
      if expected_argument_count.is_valid arguments.length then
        .ok ⟨command_type, arguments, flags⟩
      else
        .error (.WrongArgumentsCount expected_argument_count arguments.length)
    | none => .ok ⟨command_type, arguments, flags⟩

/-- `arg.starts_with('-')` of `Command::try_from` (parse_command.rs):
whether the token's first character is `-` (false for the empty token). -/
def startsWithDash (arg : String) : Bool :=
  match arg.data with
  | [] => false
  | c :: _ => c = '-'

/-- The partition loop of `Command::try_from` (parse_command.rs): tokens
after the first whose first character is `-` become flags, the others
positional arguments, input order preserved in each partition. -/
def partitionArgsFlags : List String → List String × List String
  | [] => ([], [])
  | arg :: rest =>
    let p := partitionArgsFlags rest
    if startsWithDash arg then (p.1, arg :: p.2) else (arg :: p.1, p.2)

/-- `TryFrom<String> for Command` (parse_command.rs).  The Rust code indexes
`input_vec[0]`, which panics when the token list is empty; that panic is
modelled by `none` (it is proved unreachable below). -/
def Command.tryFrom (input : String) : Option (Except CommandError Command) :=
  let input_vec := split_input_outside_quotes_on_whitespace input
  match input_vec with
  | [] => none
  | first :: rest =>
    match CommandType.tryFrom first with
    | .error e => some (.error e)
    | .ok command_type =>
      let p := partitionArgsFlags rest
      some (Command.new command_type p.1 p.2)

/-- The filesystem query surface consumed by the `ls` command: existence and
directory tests on a path, and directory enumeration.  `readDir` returns
either an enumeration failure (the error of `fs::read_dir`) or the list of
per-entry results (each entry of the iterator is itself a `Result`, as in
Rust). -/
structure FS where
  pathExists : String → Bool
  isDir : String → Bool
  readDir : String → Except String (List (Except String String))

/-- Outcome of executing a command: the lines printed to standard output,
together with how control returns — a normal return, an `Err` propagated to
the caller, a process panic, or `process::exit(0)`. -/
inductive ExecOut where
  | ok (lines : List String)
  | err (lines : List String) (e : String)
  | panic (lines : List String)
  | exit0
deriving DecidableEq, Repr

/-- Prefixes already-printed lines onto an execution outcome. -/
def ExecOut.prepend (ls : List String) : ExecOut → ExecOut
  | .ok lines => .ok (ls ++ lines)
  | .err lines e => .err (ls ++ lines) e
  | .panic lines => .panic (ls ++ lines)
  | .exit0 => .exit0

/-- The `.map(|entry| entry.unwrap().path())` step of `Command::execute`
for `Ls`: collects the entry paths, but an `Err` entry is `unwrap`ped and
panics, modelled by `none`. -/
def collectEntries : List (Except String String) → Option (List String)
  | [] => some []
  | .ok path :: rest => (collectEntries rest).map (fun ps => path :: ps)
  | .error _ :: _ => none

/-- `entries.sort()` of `Command::execute` for `Ls`: sorts the entry paths
lexicographically. -/
def sortEntries (entries : List String) : List String :=
  entries.mergeSort (fun a b => decide (a ≤ b))

/-- The `for dir in &dirs[..]` loop of `Command::execute` for `Ls`
(parse_command.rs): `multi` is the precomputed `dirs.len() > 1`. -/
def lsLoop (fs : FS) (multi : Bool) : List String → ExecOut
  | [] => .ok []
  | dir :: rest =>
    if fs.pathExists dir = false then
      .prepend ["Directory " ++ dir ++ " does not exist"] (lsLoop fs multi rest)
    else if fs.isDir dir = false then
      .prepend [dir ++ " is not a directory"] (lsLoop fs multi rest)
    else
      match fs.readDir dir with
      | .error e => .err [] e
      | .ok rawEntries =>
        match collectEntries rawEntries with
        | none => .panic []
        | some paths =>
          let entries := sortEntries paths
          .prepend ((if multi then [dir ++ ":"] else []) ++ entries
              ++ (if multi then [""] else []))
            (lsLoop fs multi rest)

/-- The `Ls` arm of `Command::execute` (parse_command.rs): the argument
list, with `"."` substituted when it is empty, drives the loop. -/
def lsExecute (fs : FS) (arguments : List String) : ExecOut :=
  let dirs := if arguments.isEmpty then ["."] else arguments
  lsLoop fs (decide (dirs.length > 1)) dirs

/-- `Command::execute` (parse_command.rs). -/
def Command.execute (fs : FS) (c : Command) : ExecOut :=
  match c.command_type with
  | .Echo => .ok [String.intercalate "\n" c.arguments]
  | .Exit => .exit0
  | .Help => .ok ["Help is not implemented yet"]
  | .Ls => lsExecute fs c.arguments

/-- `input.trim()` in `main` (main.rs): removes leading and trailing
whitespace from the line read from standard input.  Modelled directly on
the character list. -/
def trimWhitespace (s : String) : String :=
  ⟨((s.data.dropWhile Char.isWhitespace).reverse.dropWhile Char.isWhitespace).reverse⟩

/-- Result of one iteration of the `main` loop: the lines printed, and
whether the loop continues to the next prompt, the process exits, or the
process panics. -/
inductive StepResult where
  | next (printed : List String)
  | exits (printed : List String)
  | panics (printed : List String)
deriving DecidableEq, Repr

/-- One iteration of the `loop` in `main` (main.rs): the line read from
standard input is trimmed, parsed, and executed; a parse error is printed
via its `Display` and the loop continues; an execution `Err` is printed as
`An error occured: <e>` and the loop continues. -/
def mainStep (fs : FS) (input : String) : StepResult :=
  match Command.tryFrom (trimWhitespace input) with
  | none => .panics []
  | some (.error error) => .next [error.toDisplay]
  | some (.ok command) =>
    match command.execute fs with
    | .ok lines => .next lines
    | .err lines e => .next (lines ++ ["An error occured: " ++ e])
    | .panic lines => .panics lines
    | .exit0 => .exits []

/-! ## Tokenizer lemmas -/

/-- The loop of `split_input_outside_quotes` always produces at least one
token: the final unconditional push guarantees a non-empty output. -/
theorem splitLoop_ne_nil (d : Char) (cs : List Char) :
    ∀ (cur : String) (b : Bool), splitLoop d cs cur b ≠ [] := by
  induction cs with
  | nil => intro cur b; simp [splitLoop]
  | cons c cs ih =>
    intro cur b
    rw [splitLoop]
    split
    · exact ih cur (!b)
    · split
      · split
        · exact ih cur b
        · simp
      · exact ih (cur.push c) b

/-- Every token emitted before the final push is non-empty: a delimiter
only emits the buffer when the buffer is non-empty. -/
theorem splitLoop_dropLast_ne_empty (d : Char) (cs : List Char) :
    ∀ (cur : String) (b : Bool), ∀ t ∈ (splitLoop d cs cur b).dropLast, t ≠ "" := by
  induction cs with
  | nil => intro cur b; simp [splitLoop]
  | cons c cs ih =>
    intro cur b t ht
    rw [splitLoop] at ht
    by_cases hq : c = '"'
    · rw [if_pos hq] at ht
      exact ih cur (!b) t ht
    · rw [if_neg hq] at ht
      by_cases hdel : c = d ∧ b = false
      · rw [if_pos hdel] at ht
        by_cases hcur : cur = ""
        · rw [if_pos hcur] at ht
          exact ih cur b t ht
        · rw [if_neg hcur,
            List.dropLast_cons_of_ne_nil (splitLoop_ne_nil d cs "" b)] at ht
          rcases List.mem_cons.mp ht with ht | ht
          · exact ht ▸ hcur
          · exact ih "" b t ht
      · rw [if_neg hdel] at ht
        exact ih (cur.push c) b t ht

/-- No token produced by the loop contains a double-quote character,
provided the incoming buffer contains none: quote characters only toggle
the flag and are dropped. -/
theorem splitLoop_quote_not_mem (d : Char) (cs : List Char) :
    ∀ (cur : String) (b : Bool), '"' ∉ cur.data →
      ∀ t ∈ splitLoop d cs cur b, '"' ∉ t.data := by
  induction cs with
  | nil =>
    intro cur b hcur t ht
    rw [splitLoop] at ht
    simp only [List.mem_singleton] at ht
    exact ht ▸ hcur
  | cons c cs ih =>
    intro cur b hcur t ht
    rw [splitLoop] at ht
    by_cases hq : c = '"'
    · rw [if_pos hq] at ht
      exact ih cur (!b) hcur t ht
    · rw [if_neg hq] at ht
      by_cases hdel : c = d ∧ b = false
      · rw [if_pos hdel] at ht
        by_cases hcur0 : cur = ""
        · rw [if_pos hcur0] at ht
          exact ih cur b hcur t ht
        · rw [if_neg hcur0] at ht
          rcases List.mem_cons.mp ht with ht | ht
          · exact ht ▸ hcur
          · exact ih "" b (by simp) t ht
      · rw [if_neg hdel] at ht
        refine ih (cur.push c) b ?_ t ht
        simp only [String.data_push, List.mem_append, List.mem_singleton]
        rintro (h | h)
        · exact hcur h
        · exact hq (h ▸ rfl)

/-! ## Claim C1: space splitting outside quotes -/

/-- C1: the tokenizer splits on space characters outside quotes; a space
outside quotes emits the buffer only when it is non-empty — so every token
before the last is non-empty and runs of spaces never produce empty
tokens — while the final buffer is emitted unconditionally, so the empty
input yields exactly `[""]` and a trailing space yields a trailing empty
token. -/
theorem C1_space_splitting_outside_quotes :
    (split_input_outside_quotes_on_whitespace "" = [""]) ∧
    (∀ input : String, split_input_outside_quotes_on_whitespace input ≠ []) ∧
    (∀ input : String,
      ∀ t ∈ (split_input_outside_quotes_on_whitespace input).dropLast, t ≠ "") ∧
    (split_input_outside_quotes_on_whitespace "a  b" = ["a", "b"]) ∧
    (split_input_outside_quotes_on_whitespace "a " = ["a", ""]) := by
  refine ⟨rfl, fun input => splitLoop_ne_nil ' ' input.data "" false,
    fun input => splitLoop_dropLast_ne_empty ' ' input.data "" false,
    by decide, by decide⟩

/-- Witness for C1 at the concrete input `"a b"`, whose first token is in
the `dropLast` of the token list and hence non-empty. -/
theorem C1_space_splitting_outside_quotes_witness : ("a" : String) ≠ "" :=
  C1_space_splitting_outside_quotes.2.2.1 "a b" "a" (by decide)

/-! ## Claim C2: quote toggling -/

/-- C2: each double quote toggles the inside-quotes flag and is dropped
(no token ever contains a quote character); a space inside quotes is
ordinary content; an odd number of quotes raises no error and content
after the last quote still accumulates into the final token; consecutive
quotes cause no token split. -/
theorem C2_quote_toggle_and_drop :
    (∀ input : String, ∀ t ∈ split_input_outside_quotes_on_whitespace input,
      '"' ∉ t.data) ∧
    (split_input_outside_quotes_on_whitespace "\"a b\" c" = ["a b", "c"]) ∧
    (split_input_outside_quotes_on_whitespace "ab\"c d" = ["abc d"]) ∧
    (split_input_outside_quotes_on_whitespace "a\"\"b c" = ["ab", "c"]) := by
  refine ⟨fun input => splitLoop_quote_not_mem ' ' input.data "" false (by simp),
    by decide, by decide, by decide⟩

/-- Witness for C2 at the concrete input `"a b" c`: the token `a b`
contains no quote character. -/
theorem C2_quote_toggle_and_drop_witness : '"' ∉ ("a b" : String).data :=
  C2_quote_toggle_and_drop.1 "\"a b\" c" "a b" (by decide)

/-! ## Claim C9: the first token is always present -/

/-- C9: the tokenizer always returns at least one token, so the
`input_vec[0]` access in `Command::try_from` never panics (the parse never
yields the `none` that models the panic), and parsing the empty line fails
with `UnknownCommand ""` rather than crashing. -/
theorem C9_tokenizer_nonempty_no_panic :
    (∀ input : String, split_input_outside_quotes_on_whitespace input ≠ []) ∧
    (∀ input : String, (Command.tryFrom input).isSome = true) ∧
    (Command.tryFrom "" = some (.error (.UnknownCommand ""))) := by
  refine ⟨fun input => splitLoop_ne_nil ' ' input.data "" false, fun input => ?_, by rfl⟩
  unfold Command.tryFrom
  cases hv : split_input_outside_quotes_on_whitespace input with
  | nil => exact absurd hv (splitLoop_ne_nil ' ' input.data "" false)
  | cons first rest => cases h : CommandType.tryFrom first <;> simp [h]

/-! ## Claim C3: command-name resolution -/

/-- C3: the first token is the command name, resolved by exact,
case-sensitive match against the closed set `echo/exit/help/ls`; any other
first token — including prefixes and different casings — fails with
`UnknownCommand` carrying exactly that token. -/
theorem C3_command_resolution :
    (CommandType.tryFrom "echo" = .ok .Echo) ∧
    (CommandType.tryFrom "exit" = .ok .Exit) ∧
    (CommandType.tryFrom "help" = .ok .Help) ∧
    (CommandType.tryFrom "ls" = .ok .Ls) ∧
    (∀ name : String, name ∉ (["echo", "exit", "help", "ls"] : List String) →
      CommandType.tryFrom name = .error (.UnknownCommand name)) ∧
    (∀ (input first : String) (rest : List String),
      split_input_outside_quotes_on_whitespace input = first :: rest →
      first ∉ (["echo", "exit", "help", "ls"] : List String) →
      Command.tryFrom input = some (.error (.UnknownCommand first))) ∧
    (Command.tryFrom "frobnicate" = some (.error (.UnknownCommand "frobnicate"))) ∧
    (Command.tryFrom "Echo" = some (.error (.UnknownCommand "Echo"))) ∧
    (Command.tryFrom "ec" = some (.error (.UnknownCommand "ec"))) := by
  have hunk : ∀ name : String, name ∉ (["echo", "exit", "help", "ls"] : List String) →
      CommandType.tryFrom name = .error (.UnknownCommand name) := by
    intro name h
    simp only [List.mem_cons, List.not_mem_nil, or_false, not_or] at h
    obtain ⟨h1, h2, h3, h4⟩ := h
    simp [CommandType.tryFrom, h1, h2, h3, h4]
  refine ⟨rfl, rfl, rfl, rfl, hunk, ?_, by rfl, by rfl, by rfl⟩
  intro input first rest hsplit hmem
  unfold Command.tryFrom
  rw [hsplit]
  dsimp only
  rw [hunk first hmem]

/-- Witness for C3: `Echo hi` (wrong casing) is rejected with
`UnknownCommand "Echo"`. -/
theorem C3_command_resolution_witness :
    Command.tryFrom "Echo hi" = some (.error (.UnknownCommand "Echo")) :=
  C3_command_resolution.2.2.2.2.2.1 "Echo hi" "Echo" ["hi"] (by decide) (by decide)

/-! ## Claim C4: flag/argument partition and echo -/

/-- C4: remaining tokens are partitioned by whether their first character
is `-`, preserving input order in each partition (the partition equals the
two order-preserving filters); `echo hello world` parses to kind echo with
arguments `["hello", "world"]` and no flags, and executing it prints the
arguments joined by a newline. -/
theorem C4_flag_argument_partition :
    (∀ rest : List String,
      partitionArgsFlags rest
        = (rest.filter (fun a => !(startsWithDash a)),
           rest.filter (fun a => startsWithDash a))) ∧
    (Command.tryFrom "echo hello world"
      = some (.ok ⟨.Echo, ["hello", "world"], []⟩)) ∧
    (∀ fs : FS, Command.execute fs ⟨.Echo, ["hello", "world"], []⟩
      = .ok ["hello\nworld"]) := by
  refine ⟨?_, by rfl, fun fs => by rfl⟩
  intro rest
  induction rest with
  | nil => rfl
  | cons a rest ih =>
    simp only [partitionArgsFlags, ih, List.filter_cons]
    by_cases h : startsWithDash a = true <;> simp [h]

/-! ## Claim C5: fail-fast flag validation -/

/-- C5: every command kind's supported-flag set is empty, so validation
fails at the first flag with `UnsupportedFlag` naming it, before
argument-count validation (for every argument list) and regardless of the
other tokens; in particular `echo -z hi` fails with
`UnsupportedFlag "-z"`. -/
theorem C5_unsupported_flag_fail_fast :
    (∀ t : CommandType, t.get_supported_flags = []) ∧
    (∀ (t : CommandType) (args : List String) (flag : String) (more : List String),
      Command.new t args (flag :: more) = .error (.UnsupportedFlag flag)) ∧
    (∀ (input first : String) (rest : List String) (t : CommandType)
        (args : List String) (flag : String) (more : List String),
      split_input_outside_quotes_on_whitespace input = first :: rest →
      CommandType.tryFrom first = .ok t →
      partitionArgsFlags rest = (args, flag :: more) →
      Command.tryFrom input = some (.error (.UnsupportedFlag flag))) ∧
    (Command.tryFrom "echo -z hi" = some (.error (.UnsupportedFlag "-z"))) := by
  have hflags : ∀ t : CommandType, t.get_supported_flags = [] := by
    intro t; cases t <;> rfl
  have hnew : ∀ (t : CommandType) (args : List String) (flag : String)
      (more : List String),
      Command.new t args (flag :: more) = .error (.UnsupportedFlag flag) := by
    intro t args flag more
    simp [Command.new, firstUnsupportedFlag, CommandType.is_supported_flag, hflags t]
  refine ⟨hflags, hnew, ?_, by rfl⟩
  intro input first rest t args flag more hsplit hok hpart
  unfold Command.tryFrom
  rw [hsplit]
  dsimp only
  rw [hok]
  dsimp only
  rw [hpart]
  exact congrArg some (hnew t args flag more)

/-- Witness for C5 at `ls -a`: the first (and only) flag is rejected. -/
theorem C5_unsupported_flag_fail_fast_witness :
    Command.tryFrom "ls -a" = some (.error (.UnsupportedFlag "-a")) :=
  C5_unsupported_flag_fail_fast.2.2.1 "ls -a" "ls" ["-a"] .Ls [] "-a" []
    (by decide) (by rfl) (by rfl)

/-! ## Claim C6: argument-count validation -/

/-- C6: the per-kind argument-count table is echo ↦ at least 1,
exit ↦ exactly 0, help ↦ exactly 0, ls ↦ unconstrained; the satisfaction
predicate means `Exact n` iff count = n, `AtLeast n` iff count ≥ n,
`AtMost n` iff count ≤ n, `Range lo hi` iff lo ≤ count ≤ hi; a mismatch
aborts with `WrongArgumentsCount` carrying the constraint and the actual
count, and `exit extra` fails with expected `Exact 0`, actual 1. -/
theorem C6_argument_count_validation :
    (CommandType.get_expected_argument_count .Echo = some (.AtLeast 1)) ∧
    (CommandType.get_expected_argument_count .Exit = some (.Exact 0)) ∧
    (CommandType.get_expected_argument_count .Help = some (.Exact 0)) ∧
    (CommandType.get_expected_argument_count .Ls = none) ∧
    (∀ n count : Nat,
      ((ArgumentCount.Exact n).is_valid count = true ↔ count = n) ∧
      ((ArgumentCount.AtLeast n).is_valid count = true ↔ n ≤ count) ∧
      ((ArgumentCount.AtMost n).is_valid count = true ↔ count ≤ n)) ∧
    (∀ lo hi count : Nat,
      (ArgumentCount.Range lo hi).is_valid count = true ↔ lo ≤ count ∧ count ≤ hi) ∧
    (∀ (t : CommandType) (args : List String) (c : ArgumentCount),
      t.get_expected_argument_count = some c →
      c.is_valid args.length = false →
      Command.new t args [] = .error (.WrongArgumentsCount c args.length)) ∧
    (∀ args : List String, Command.new .Ls args [] = .ok ⟨.Ls, args, []⟩) ∧
    (Command.tryFrom "exit extra"
      = some (.error (.WrongArgumentsCount (.Exact 0) 1))) := by
  refine ⟨rfl, rfl, rfl, rfl,
    fun n count => ⟨by simp [ArgumentCount.is_valid],
      by simp [ArgumentCount.is_valid], by simp [ArgumentCount.is_valid]⟩,
    fun lo hi count => by simp [ArgumentCount.is_valid],
    ?_, fun args => by rfl, by rfl⟩
  intro t args c hc hbad
  unfold Command.new
  rw [show firstUnsupportedFlag t [] = none from rfl, hc]
  simp [hbad]

/-- Witness for C6: `exit` with one positional argument violates
`Exact 0`. -/
theorem C6_argument_count_validation_witness :
    Command.new .Exit ["extra"] [] = .error (.WrongArgumentsCount (.Exact 0) 1) :=
  C6_argument_count_validation.2.2.2.2.2.2.1 .Exit ["extra"] (.Exact 0) rfl rfl

/-! ## Directory-listing lemmas -/

/-- Collecting entry results that are all `Ok` yields exactly those
paths. -/
theorem collectEntries_map_ok (entries : List String) :
    collectEntries (entries.map Except.ok) = some entries := by
  induction entries with
  | nil => rfl
  | cons p ps ih => simp [collectEntries, ih]

/-- Collecting entry results fails (the `unwrap` panics) exactly when some
entry is an `Err`. -/
theorem collectEntries_eq_none_iff (raw : List (Except String String)) :
    collectEntries raw = none ↔ ∃ e, Except.error e ∈ raw := by
  induction raw with
  | nil => simp [collectEntries]
  | cons entry rest ih =>
    cases entry with
    | ok p => simp [collectEntries, ih]
    | error e => simp [collectEntries]

/-- If prefixing printed lines onto a loop outcome yields an `Err`, the
outcome itself was that `Err` (with the same error). -/
theorem prepend_eq_err (ls : List String) (x : ExecOut) (lines : List String)
    (e : String) (h : ExecOut.prepend ls x = .err lines e) :
    ∃ lines0, x = .err lines0 e := by
  cases x with
  | ok l => simp [ExecOut.prepend] at h
  | err l e0 =>
    simp only [ExecOut.prepend, ExecOut.err.injEq] at h
    exact ⟨l, by rw [h.2]⟩
  | panic l => simp [ExecOut.prepend] at h
  | exit0 => simp [ExecOut.prepend] at h

/-- A small concrete filesystem used to instantiate the theorems: two
directories, `d1` with two entries listed out of order and `d2` with one
entry; every other path is missing. -/
def sampleFS : FS where
  pathExists := fun p => p == "d1" || p == "d2"
  isDir := fun p => p == "d1" || p == "d2"
  readDir := fun p =>
    if p = "d1" then .ok [.ok "d1/b", .ok "d1/a"]
    else if p = "d2" then .ok [.ok "d2/x"]
    else .error "No such file or directory"

/-! ## Claim C7: directory listing -/

/-- C7: `ls` with no arguments lists the single entry `"."` with no
framing; for each path in order, a missing path or a non-directory prints
a one-line diagnostic and the loop continues with the next path; an
existing directory's entries are printed sorted lexicographically (the
printed list is sorted and a permutation of the enumerated entries), with
a `<path>:` header line and a trailing blank line exactly when more than
one directory argument was given. -/
theorem C7_ls_listing :
    (∀ fs : FS, Command.execute fs ⟨.Ls, [], []⟩ = lsLoop fs false ["."]) ∧
    (∀ (fs : FS) (dir : String),
      Command.execute fs ⟨.Ls, [dir], []⟩ = lsLoop fs false [dir]) ∧
    (∀ (fs : FS) (d1 d2 : String),
      Command.execute fs ⟨.Ls, [d1, d2], []⟩ = lsLoop fs true [d1, d2]) ∧
    (∀ (fs : FS) (multi : Bool) (dir : String) (rest : List String),
      fs.pathExists dir = false →
      lsLoop fs multi (dir :: rest)
        = .prepend ["Directory " ++ dir ++ " does not exist"]
            (lsLoop fs multi rest)) ∧
    (∀ (fs : FS) (multi : Bool) (dir : String) (rest : List String),
      fs.pathExists dir = true → fs.isDir dir = false →
      lsLoop fs multi (dir :: rest)
        = .prepend [dir ++ " is not a directory"] (lsLoop fs multi rest)) ∧
    (∀ (fs : FS) (multi : Bool) (dir : String) (rest : List String)
        (entries : List String),
      fs.pathExists dir = true → fs.isDir dir = true →
      fs.readDir dir = .ok (entries.map Except.ok) →
      lsLoop fs multi (dir :: rest)
        = .prepend ((if multi then [dir ++ ":"] else []) ++ sortEntries entries
            ++ (if multi then [""] else []))
          (lsLoop fs multi rest)
      ∧ (sortEntries entries).Pairwise (fun a b : String => a ≤ b)
      ∧ List.Perm (sortEntries entries) entries) := by
  refine ⟨fun fs => rfl, fun fs dir => rfl, fun fs d1 d2 => rfl, ?_, ?_, ?_⟩
  · intro fs multi dir rest h1
    rw [lsLoop]
    simp [h1]
  · intro fs multi dir rest h1 h2
    rw [lsLoop]
    simp [h1, h2]
  · intro fs multi dir rest entries h1 h2 h3
    refine ⟨?_, ?_, ?_⟩
    · rw [lsLoop]
      simp [h1, h2, h3, collectEntries_map_ok]
    · have htrans : ∀ a b c : String,
          (fun a b : String => decide (a ≤ b)) a b →
          (fun a b : String => decide (a ≤ b)) b c →
          (fun a b : String => decide (a ≤ b)) a c := by
        intro a b c hab hbc
        simp only [decide_eq_true_eq] at *
        exact le_trans hab hbc
      have htotal : ∀ a b : String,
          ((fun a b : String => decide (a ≤ b)) a b
            || (fun a b : String => decide (a ≤ b)) b a) = true := by
        intro a b
        simpa using le_total a b
      have hs := List.sorted_mergeSort htrans htotal entries
      exact hs.imp (fun h => by simpa using h)
    · exact List.mergeSort_perm entries _

/-- Witness for C7 on the concrete filesystem `sampleFS`, listing the two
directories `d1 d2`: the `d1` segment carries its header and blank line,
and its entries come out sorted. -/
theorem C7_ls_listing_witness :
    lsLoop sampleFS true ["d1", "d2"]
      = .prepend (["d1:"] ++ sortEntries ["d1/b", "d1/a"] ++ [""])
          (lsLoop sampleFS true ["d2"])
    ∧ (sortEntries ["d1/b", "d1/a"]).Pairwise (fun a b : String => a ≤ b)
    ∧ List.Perm (sortEntries ["d1/b", "d1/a"]) ["d1/b", "d1/a"] :=
  C7_ls_listing.2.2.2.2.2 sampleFS true "d1" ["d2"] ["d1/b", "d1/a"]
    (by decide) (by decide) (by rfl)

/-! ## Claim C10: read_dir error versus entry panic -/

/-- A concrete filesystem whose directory enumeration yields one good
entry and then a failing entry. -/
def entryErrFS : FS where
  pathExists := fun _ => true
  isDir := fun _ => true
  readDir := fun _ => .ok [.ok "a", .error "permission denied"]

/-- C10: during `ls` execution, a failing initial `read_dir` call is
returned as a recoverable `Err` (and every recoverable `Err` of the loop
comes from such a `read_dir` failure), while an `Err` on an individual
directory entry is `unwrap`ped and panics the process instead of being
reported. -/
theorem C10_read_dir_err_vs_entry_panic :
    (∀ (fs : FS) (multi : Bool) (dir : String) (rest : List String) (e : String),
      fs.pathExists dir = true → fs.isDir dir = true →
      fs.readDir dir = .error e →
      lsLoop fs multi (dir :: rest) = .err [] e) ∧
    (∀ (fs : FS) (multi : Bool) (dir : String) (rest : List String)
        (raw : List (Except String String)) (e : String),
      fs.pathExists dir = true → fs.isDir dir = true →
      fs.readDir dir = .ok raw → Except.error e ∈ raw →
      lsLoop fs multi (dir :: rest) = .panic []) ∧
    (∀ (fs : FS) (multi : Bool) (dirs lines : List String) (e : String),
      lsLoop fs multi dirs = .err lines e →
      ∃ dir ∈ dirs, fs.pathExists dir = true ∧ fs.isDir dir = true ∧
        fs.readDir dir = .error e) := by
  refine ⟨?_, ?_, ?_⟩
  · intro fs multi dir rest e h1 h2 h3
    rw [lsLoop]
    simp [h1, h2, h3]
  · intro fs multi dir rest raw e h1 h2 h3 hmem
    rw [lsLoop]
    simp [h1, h2, h3, (collectEntries_eq_none_iff raw).mpr ⟨e, hmem⟩]
  · intro fs multi dirs
    induction dirs with
    | nil => intro lines e h; rw [lsLoop] at h; cases h
    | cons dir rest ih =>
      intro lines e h
      rw [lsLoop] at h
      by_cases h1 : fs.pathExists dir = false
      · rw [if_pos h1] at h
        obtain ⟨lines0, hrec⟩ := prepend_eq_err _ _ _ _ h
        obtain ⟨d, hd, hex⟩ := ih lines0 e hrec
        exact ⟨d, List.mem_cons_of_mem dir hd, hex⟩
      · rw [if_neg h1] at h
        by_cases h2 : fs.isDir dir = false
        · rw [if_pos h2] at h
          obtain ⟨lines0, hrec⟩ := prepend_eq_err _ _ _ _ h
          obtain ⟨d, hd, hex⟩ := ih lines0 e hrec
          exact ⟨d, List.mem_cons_of_mem dir hd, hex⟩
        · rw [if_neg h2] at h
          simp only [Bool.not_eq_false] at h1 h2
          cases hread : fs.readDir dir with
          | error e0 =>
            simp only [hread] at h
            obtain ⟨hlines, he⟩ := ExecOut.err.inj h
            exact ⟨dir, List.mem_cons_self dir rest, h1, h2, he ▸ hread⟩
          | ok raw =>
            simp only [hread] at h
            cases hcol : collectEntries raw with
            | none => simp only [hcol] at h; cases h
            | some paths =>
              simp only [hcol] at h
              obtain ⟨lines0, hrec⟩ := prepend_eq_err _ _ _ _ h
              obtain ⟨d, hd, hex⟩ := ih lines0 e hrec
              exact ⟨d, List.mem_cons_of_mem dir hd, hex⟩

/-- Witness for C10: on `entryErrFS`, whose enumeration succeeds but whose
second entry is an `Err`, listing the directory `d` panics (prints
nothing) rather than returning a recoverable error. -/
theorem C10_read_dir_err_vs_entry_panic_witness :
    lsLoop entryErrFS false ["d"] = .panic [] :=
  C10_read_dir_err_vs_entry_panic.2.1 entryErrFS false "d" []
    [.ok "a", .error "permission denied"] "permission denied"
    (by rfl) (by rfl) (by rfl) (by simp)

/-! ## Claim C8: loop-boundary error recovery -/

/-- A concrete filesystem whose directory enumeration always fails. -/
def readErrFS : FS where
  pathExists := fun _ => true
  isDir := fun _ => true
  readDir := fun _ => .error "Permission denied"

/-- Counterexample to C8 as stated: the execution-error message printed at
the loop boundary is `An error occured: <e>` — the word is spelled
`occured` in the code and the error detail is appended — so the printed
line does not begin with the claimed text `An error occurred`. -/
theorem C8_counterexample :
    mainStep readErrFS "ls" = .next ["An error occured: Permission denied"] ∧
    List.isPrefixOf "An error occurred".data
      "An error occured: Permission denied".data = false :=
  ⟨by rfl, by decide⟩

/-- C8 (amended): every failure is recovered at the loop boundary and the
loop continues — a parse/validation error is printed as its user-facing
`Display` message and the loop continues; an execution error is printed as
`An error occured: <e>` (sic) and the loop continues; no error is silently
swallowed, and error messages go to the same single output stream as
normal output. -/
theorem C8_loop_error_recovery :
    (∀ (fs : FS) (input : String) (e : CommandError),
      Command.tryFrom (trimWhitespace input) = some (.error e) →
      mainStep fs input = .next [e.toDisplay]) ∧
    (∀ (fs : FS) (input : String) (c : Command) (lines : List String) (e : String),
      Command.tryFrom (trimWhitespace input) = some (.ok c) →
      c.execute fs = .err lines e →
      mainStep fs input = .next (lines ++ ["An error occured: " ++ e])) ∧
    (∀ (fs : FS) (input : String) (c : Command) (lines : List String),
      Command.tryFrom (trimWhitespace input) = some (.ok c) →
      c.execute fs = .ok lines →
      mainStep fs input = .next lines) := by
  refine ⟨?_, ?_, ?_⟩
  · intro fs input e h
    unfold mainStep
    rw [h]
  · intro fs input c lines e h hexec
    unfold mainStep
    rw [h]
    dsimp only
    rw [hexec]
  · intro fs input c lines h hexec
    unfold mainStep
    rw [h]
    dsimp only
    rw [hexec]

/-- Witness for C8 (amended): a failing enumeration while executing `ls`
is printed as `An error occured: Permission denied` and the loop
continues. -/
theorem C8_loop_error_recovery_witness :
    mainStep readErrFS "ls" = .next ["An error occured: Permission denied"] :=
  C8_loop_error_recovery.2.1 readErrFS "ls" ⟨.Ls, [], []⟩ [] "Permission denied"
    (by rfl) (by rfl)

end MyBasicCliTools
